import Mathlib

/-!
Shallow embedding of the webhook-manager deduplication and forwarding
pipeline (src/api/chatlogger.js and src/api/incoming.js).

Modelling conventions:
* JavaScript strings that may be `null`/`undefined` are `Option String`;
  `toSafeString` mirrors the source helper of the same name.
* The Upstash pipeline round trip and the Discord sink are external
  collaborators; their replies are inputs to the model (`StoreOutcome`,
  a `Nat → SinkOutcome` oracle indexed by delivery order).  The key
  strings sent to the store (scope, sha1 of the content signature) never
  influence the decision logic in the source, so key construction and the
  sha1 hash itself are not re-implemented here.
* JS timestamps are `Nat` milliseconds.  In `incoming.js` the comparisons
  `now - last < W` and `now - ts > W` give the same verdicts under
  truncated `Nat` subtraction as under JS signed arithmetic (a negative
  difference and a zero difference classify identically on both sides).
* The handler is modelled from the point where the POST body has passed
  the transport checks (method, auth); the spec excludes that glue.
-/

/-- JS `String.prototype.trim`, written on the character list so that the
kernel can evaluate it (`String.trim` itself is iterator-based).  It
removes the same ASCII whitespace as `Char.isWhitespace`. -/
def jsTrim (s : String) : String :=
  String.mk (((s.data.dropWhile Char.isWhitespace).reverse.dropWhile Char.isWhitespace).reverse)

/-- JS `String.prototype.toLowerCase`, written on the character list. -/
def jsToLower (s : String) : String :=
  String.mk (s.data.map Char.toLower)

/-- Truthiness of a possibly-absent JS string (`!!v`): present and non-empty. -/
def jsTruthyStr : Option String → Bool
  | none => false
  | some s => !(s == "")

/-- Source `toSafeString`: null/undefined become `""`, strings pass through. -/
def toSafeString : Option String → String
  | none => ""
  | some s => s

/-- JS `v || d` for a possibly-absent number (0 is falsy). -/
def jsOrNat : Option Nat → Nat → Nat
  | none, d => d
  | some n, d => if n = 0 then d else n

/-- JS `v || d` for a possibly-absent string (the empty string is falsy). -/
def jsOrStr : Option String → String → String
  | none, d => d
  | some s, d => if s = "" then d else s

/-- Fuel-driven body of `chunkArray`.  The source loop strides `i += size`
over the array; fuel `arr.length` suffices whenever `0 < size` (the JS
loop does not terminate for `size = 0`, a case the program never uses). -/
def chunkGo (size : Nat) : Nat → List α → List (List α)
  | 0, _ => []
  | _, [] => []
  | fuel + 1, arr => arr.take size :: chunkGo size fuel (arr.drop size)

/-- Source `chunkArray`: slice `arr` into consecutive chunks of `size`. -/
def chunkArray (arr : List α) (size : Nat) : List (List α) :=
  chunkGo size arr.length arr

/-- Source `normalizeForSig`: lowercase, trim, collapse whitespace runs. -/
def collapseWs : List Char → List Char
  | [] => []
  | c :: rest =>
    if c.isWhitespace then ' ' :: collapseWs (rest.dropWhile Char.isWhitespace)
    else c :: collapseWs rest
termination_by l => l.length
decreasing_by
  · exact Nat.lt_succ_of_le (List.dropWhile_sublist _).length_le
  · exact Nat.lt_succ_self _

/-- Source `normalizeForSig` on a possibly-absent field. -/
def normalizeForSig (s : Option String) : String :=
  String.mk (collapseWs (jsTrim (jsToLower (toSafeString s))).toList)

/-- Pad/truncate a fractional-seconds digit run to exactly three digits
(`frac.slice(0,3).padEnd(3,"0")` in the source). -/
def padFracTo3 (frac : List Char) : List Char :=
  frac.take 3 ++ List.replicate (3 - (frac.take 3).length) '0'

/-- Source `normalizeIsoTimestamp`: trim; an empty string stays empty; a
trailing `.<digits>Z` has its fraction truncated/padded to milliseconds. -/
def normalizeIsoTimestamp (timestampIso : Option String) : String :=
  let s := jsTrim (toSafeString timestampIso)
  if s = "" then ""
  else
    match s.toList.reverse with
    | 'Z' :: rest =>
      let digitsRev := rest.takeWhile Char.isDigit
      if digitsRev.isEmpty then s
      else
        match rest.drop digitsRev.length with
        | '.' :: preRev =>
          String.mk (preRev.reverse ++ ('.' :: (padFracTo3 digitsRev.reverse ++ ['Z'])))
        | _ => s
    | _ => s

/-- Source `MEMBER_RANK_EMOJI[r] ?? '🔹'` (ranks below 100). -/
def memberRankEmoji (r : Int) : String :=
  if r = 0 then "<:dogsbody_clan:1465907271044305108>"
  else if r = 10 then "<:serenist_clan:1465907269995729090>"
  else if r = 20 then "<:gatherer_clan:1463556335894532250>"
  else if r = 30 then "<:pvmfocused_clan:1463556373370634280>"
  else if r = 40 then "<:smiter_clan:1463556337354018816>"
  else if r = 50 then "<:firecape_clan:1463556298036740350>"
  else if r = 60 then "<:myth_clan:1463556333398655138>"
  else if r = 70 then "<:clogger_clan:1463556374091792604>"
  else if r = 80 then "<:questcape_clan:1463556299412209744>"
  else if r = 90 then "<:diary_clan:1463556375538827376>"
  else if r = 95 then "<:raider_clan:1463556332236832986>"
  else if r = 96 then "<:elite_clan:1463556330819289169>"
  else if r = 97 then "<:infernal_clan:1463556296958542093>"
  else if r = 98 then "<:maxed_clan:1463556295755038721>"
  else if r = 99 then "<:beat_clan:1463556294358335611>"
  else "🔹"

/-- Source `STAFF_RANK_EMOJI[r] ?? '🛡️'` (ranks 100 and above). -/
def staffRankEmoji (r : Int) : String :=
  if r = 100 then ""
  else if r = 101 then "<:sotw_clan:1465907273724461152>"
  else if r = 102 then "<:botw_clan:1465907272860569610>"
  else if r = 103 then "<:99sailingwinner:1466100128115986596>"
  else if r = 104 then ""
  else if r = 105 then ""
  else if r = 110 then "<:events_clan:1465907290061275187>"
  else if r = 115 then "<:admiral_clan:1465907245199134993>"
  else if r = 108 then ""
  else if r = 109 then ""
  else if r = 125 then "<:deputy_clan:1465907244326453414>"
  else if r = 126 then "<:owner_clan:1465907243378540718>"
  else "🛡️"

/-- Source `rankToEmoji`.  The normalized `rank` is either an integer or
null; `Number(null)` is `0` in JS, so a null rank falls through to the
member table at rank 0.  An `Int` is always finite, so the
`!Number.isFinite` branch cannot fire. -/
def rankToEmoji (rank : Option Int) : String :=
  let r : Int := match rank with | some v => v | none => 0
  if r = -2 then ""
  else if r = -1 then "<:guest_clan:1465907242497868050>"
  else if 0 ≤ r ∧ r < 100 then memberRankEmoji r
  else if 100 ≤ r then staffRankEmoji r
  else "❓"

/-- A raw batch entry as received in the POST body.  `rank` is `some v`
when the payload carries an integer rank and `none` when it is
null/undefined (the plugin emits integers or nulls). -/
structure RawRecord where
  id : Option String
  message : Option String
  timestamp : Option String
  chatType : Option String
  chatName : Option String
  sender : Option String
  rank : Option Int
deriving DecidableEq, Repr

/-- A normalized event, as built by the per-record map in the handler. -/
structure ChatItem where
  id : String
  message : String
  timestamp : String
  chatType : String
  chatName : String
  sender : String
  rank : Option Int
deriving DecidableEq, Repr

/-- The per-record normalization step of the handler: mark invalid (here:
return `none`) when `id` is null/undefined or the trimmed message is
empty; otherwise trim the descriptive fields and normalize the timestamp.
The source's rank coercion `Number.isInteger(r) ? r : r ?? null` is the
identity on this model of ranks. -/
def normalizeRecord (m : RawRecord) : Option ChatItem :=
  let message := jsTrim (toSafeString m.message)
  let timestamp := normalizeIsoTimestamp m.timestamp
  let chatType := jsTrim (toSafeString m.chatType)
  let chatName := jsTrim (toSafeString m.chatName)
  let sender := jsTrim (toSafeString m.sender)
  match m.id with
  | none => none
  | some idv =>
    if message = "" then none
    else some ⟨idv, message, timestamp, chatType, chatName, sender, m.rank⟩

/-- `body.slice(0, 50)` then map-and-filter the invalid markers. -/
def normalizeItems (body : List RawRecord) : List ChatItem :=
  (body.take 50).filterMap normalizeRecord

/-- `items.filter((m) => m.rank !== -2)`: drop the sentinel rank. -/
def filteredOf (body : List RawRecord) : List ChatItem :=
  (normalizeItems body).filter (fun m => !(m.rank == some (-2)))

/-- One entry of the Upstash pipeline reply: an object that may carry an
`error` field and may carry a `result` field. -/
structure CmdResult where
  error : Option String
  result : Option String
deriving DecidableEq, Repr

/-- `!!res?.error` for a possibly-missing pipeline entry. -/
def cmdErrored (r : Option CmdResult) : Bool :=
  jsTruthyStr (r.bind CmdResult.error)

/-- `res?.result === "OK"` for a possibly-missing pipeline entry. -/
def cmdOk (r : Option CmdResult) : Bool :=
  r.bind CmdResult.result == some "OK"

/-- The per-item decision loop body of `dedupeMessagesAtomic`: read the
pair of results at positions `2*i` and `2*i+1`; a per-command error fails
open (`false` = allow); otherwise duplicate unless both report "OK". -/
def decideFlag (results : List CmdResult) (i : Nat) : Bool :=
  let idResult := results[2 * i]?
  let contentResult := results[2 * i + 1]?
  if cmdErrored idResult || cmdErrored contentResult then false
  else !(cmdOk idResult && cmdOk contentResult)

/-- The reconstruction loop: one flag per item, from its own result pair. -/
def dedupeDecisions (numItems : Nat) (results : List CmdResult) : List Bool :=
  (List.range numItems).map (decideFlag results)

/-- `res.data` of a transport-successful pipeline call: either an array
of command results or some non-array value. -/
inductive PipelineData where
  | arr (results : List CmdResult)
  | nonArray
deriving DecidableEq, Repr

/-- Outcome of the batched pipeline POST: a reply, or a thrown
transport error (connectivity, timeout, non-2xx). -/
inductive StoreOutcome where
  | ok (d : PipelineData)
  | netError
deriving DecidableEq, Repr

/-- `Array.isArray(res.data) ? res.data : []` from the source. -/
def resultsOf : PipelineData → List CmdResult
  | .arr rs => rs
  | .nonArray => []

/-- Source `dedupeMessagesAtomic`.  Missing store configuration and a
thrown pipeline call both fail open (every flag `false`); a reply is
interpreted pairwise by `dedupeDecisions`.  The `scope` and TTL arguments
of the source only shape the key strings sent to the store, which the
`store` oracle abstracts, so they are omitted here. -/
def dedupeMessagesAtomic (items : List ChatItem) (upstashUrl upstashToken : Option String)
    (store : StoreOutcome) : List Bool :=
  if items.length = 0 then []
  else if !(jsTruthyStr upstashUrl) || !(jsTruthyStr upstashToken) then
    items.map (fun _ => false)
  else
    match store with
    | .netError => items.map (fun _ => false)
    | .ok d => dedupeDecisions items.length (resultsOf d)

/-- The accepted-collection loop of the handler: keep item `i` when
`isDupFlags[i]` is falsy (a missing flag is falsy in JS, hence `getD`). -/
def acceptedOf (items : List ChatItem) (flags : List Bool) : List ChatItem :=
  ((items.enum).filter (fun p => !(flags.getD p.1 false))).map Prod.snd

/-- The duplicate counter of the same loop. -/
def duplicatesOf (items : List ChatItem) (flags : List Bool) : Nat :=
  ((items.enum).filter (fun p => flags.getD p.1 false)).length

/-- One Discord embed: `{ description: chunk.join("\n\n"), color: 0x3498db }`. -/
structure Embed where
  description : String
  color : Nat
deriving DecidableEq, Repr

/-- Source line rendering: `**${emoji} ${who}:** ${message}` with an
`Unknown` fallback for an empty sender and no emoji prefix when the rank
renders to the empty string. -/
def renderLine (m : ChatItem) : String :=
  let who := if m.sender == "" then "Unknown" else m.sender
  let emoji := rankToEmoji m.rank
  let pfx := if emoji == "" then who else emoji ++ " " ++ who
  "**" ++ pfx ++ ":** " ++ m.message

/-- Render accepted items to lines, chunk by 6, build one embed per chunk. -/
def embedsFor (accepted : List ChatItem) : List Embed :=
  (chunkArray (accepted.map renderLine) 6).map
    (fun c => ⟨String.intercalate "\n\n" c, 0x3498db⟩)

/-- The error information the handler reads off a thrown sink error:
`err.response?.status` and `err.response?.data` (both may be absent,
e.g. for the missing-configuration `throw new Error(...)`). -/
structure SinkFail where
  status : Option Nat
  data : Option String
deriving DecidableEq, Repr

/-- Outcome of one `axios.post` to the Discord channel. -/
inductive SinkOutcome where
  | ok
  | fail (e : SinkFail)
deriving DecidableEq, Repr

/-- The sequential delivery loop of `postDiscordEmbeds`: deliver embed
`i`, stop at the first failure.  Returns the number of embeds delivered
and the error that stopped the loop, if any. -/
def postGo (sink : Nat → SinkOutcome) : Nat → List Embed → Nat × Option SinkFail
  | i, [] => (i, none)
  | i, _ :: rest =>
    match sink i with
    | .ok => postGo sink (i + 1) rest
    | .fail e => (i, some e)

/-- Source `postDiscordEmbeds`: throw (here: a response-less failure)
when the channel id or bot token is missing, otherwise deliver the
embeds one by one in order. -/
def postDiscordEmbeds (channelId botToken : Option String) (sink : Nat → SinkOutcome)
    (embeds : List Embed) : Nat × Option SinkFail :=
  if !(jsTruthyStr channelId) then (0, some ⟨none, none⟩)
  else if !(jsTruthyStr botToken) then (0, some ⟨none, none⟩)
  else postGo sink 0 embeds

/-- Environment of the chatlogger handler.  The TTLs stand for
`Number(env || default)` already applied. -/
structure Env where
  upstashUrl : Option String
  upstashToken : Option String
  channelId : Option String
  botToken : Option String
  idTtlSec : Nat
  contentTtlSec : Nat
deriving DecidableEq, Repr

/-- The JSON responses the POST path of the handler can produce:
`400 {error: msg}`, the success summary, or the sink-error response
`status {error: data}` built in the catch block. -/
inductive Response where
  | badRequest (msg : String)
  | successJson (received accepted duplicates idTtlSec contentTtlSec : Nat)
  | sinkError (status : Nat) (errorData : String)
deriving DecidableEq, Repr

/-- The handler from the point where `filteredItems` is in hand: reject
an empty list, dedupe, count, short-circuit when nothing was accepted,
otherwise format, chunk and forward, mapping a sink failure to
`err.response?.status || 502` and `err.response?.data || "Unknown error"`. -/
def processFiltered (env : Env) (filteredItems : List ChatItem) (store : StoreOutcome)
    (sink : Nat → SinkOutcome) : Response :=
  if filteredItems.length = 0 then .badRequest "No valid messages found in body."
  else
    let isDupFlags := dedupeMessagesAtomic filteredItems env.upstashUrl env.upstashToken store
    let accepted := acceptedOf filteredItems isDupFlags
    let duplicates := duplicatesOf filteredItems isDupFlags
    if accepted.length = 0 then
      .successJson filteredItems.length 0 duplicates env.idTtlSec env.contentTtlSec
    else
      match postDiscordEmbeds env.channelId env.botToken sink (embedsFor accepted) with
      | (_, none) =>
        .successJson filteredItems.length accepted.length duplicates env.idTtlSec env.contentTtlSec
      | (_, some e) =>
        .sinkError (jsOrNat e.status 502) (jsOrStr e.data "Unknown error")

/-- The POST path of the chatlogger handler after transport checks:
reject a non-array body, normalize and filter, then `processFiltered`. -/
def handler (env : Env) (body : Option (List RawRecord)) (store : StoreOutcome)
    (sink : Nat → SinkOutcome) : Response :=
  match body with
  | none => .badRequest "Expected JSON array body."
  | some arr => processFiltered env (filteredOf arr) store sink

/-! Embedding of the in-process fallback deduplicator (src/api/incoming.js). -/

/-- `DEDUP_WINDOW = 1_000` ms. -/
def DEDUP_WINDOW : Nat := 1000

/-- The `seen` map, `txnText → timestamp`, as an insertion-ordered list. -/
abbrev SeenMap := List (String × Nat)

/-- `seen.get(txnText) || 0`. -/
def seenGet (seen : SeenMap) (txnText : String) : Nat :=
  match seen.find? (fun p => p.1 == txnText) with
  | some p => p.2
  | none => 0

/-- `seen.set(txnText, now)`: replace in place when the key is present,
append otherwise (JS `Map.set` keeps insertion order). -/
def seenSet (seen : SeenMap) (txnText : String) (now : Nat) : SeenMap :=
  if seen.any (fun p => p.1 == txnText) then
    seen.map (fun p => if p.1 == txnText then (txnText, now) else p)
  else
    seen ++ [(txnText, now)]

/-- The prune loop: `if (now - ts > DEDUP_WINDOW) seen.delete(text)`. -/
def pruneSeen (seen : SeenMap) (now : Nat) : SeenMap :=
  seen.filter (fun p => !(decide (now - p.2 > DEDUP_WINDOW)))

/-- Steps 3 of the incoming handler: duplicate iff
`now - (seen.get(t) || 0) < DEDUP_WINDOW`; otherwise record `now` for the
text and prune entries older than the window. -/
def incomingDedupeStep (seen : SeenMap) (txnText : String) (now : Nat) : Bool × SeenMap :=
  let last := seenGet seen txnText
  if now - last < DEDUP_WINDOW then (true, seen)
  else (false, pruneSeen (seenSet seen txnText now) now)

/-! Helper lemmas. -/

/-- Splitting a filter by a predicate and its negation recovers the length. -/
theorem length_filter_add_length_filter_not (l : List α) (p : α → Bool) :
    (l.filter p).length + (l.filter (fun a => !(p a))).length = l.length := by
  induction l with
  | nil => rfl
  | cons a t ih =>
    cases h : p a <;> simp [List.filter_cons, h] <;> omega

/-- The accept/duplicate loop partitions the filtered items. -/
theorem acceptedOf_length_add_duplicatesOf (items : List ChatItem) (flags : List Bool) :
    (acceptedOf items flags).length + duplicatesOf items flags = items.length := by
  unfold acceptedOf duplicatesOf
  rw [List.length_map]
  have h := length_filter_add_length_filter_not (items.enum) (fun p => flags.getD p.1 false)
  rw [List.enum_length] at h
  omega

theorem getD_map_const_false (items : List ChatItem) (i : Nat) :
    (items.map (fun _ => false)).getD i false = false := by
  rw [List.getD_eq_getElem?_getD, List.getElem?_map]
  cases items[i]? <;> rfl

/-- With an all-false flag list every item is accepted, in order. -/
theorem acceptedOf_map_false (items : List ChatItem) :
    acceptedOf items (items.map (fun _ => false)) = items := by
  unfold acceptedOf
  rw [List.filter_eq_self.mpr, List.enum_map_snd]
  intro p _
  rw [getD_map_const_false]
  rfl

theorem duplicatesOf_map_false (items : List ChatItem) :
    duplicatesOf items (items.map (fun _ => false)) = 0 := by
  unfold duplicatesOf
  rw [List.filter_eq_nil_iff.mpr, List.length_nil]
  intro p _
  rw [getD_map_const_false]
  simp

theorem map_const_true_of_length_eq (l₁ : List α) (l₂ : List β) (h : l₁.length = l₂.length) :
    l₁.map (fun _ => true) = l₂.map (fun _ => true) := by
  induction l₁ generalizing l₂ with
  | nil => cases l₂ with
    | nil => rfl
    | cons b t => simp at h
  | cons a t ih =>
    cases l₂ with
    | nil => simp at h
    | cons b t₂ => simp only [List.map_cons]; rw [ih t₂ (by simpa using h)]

/-- A store-level failure (missing configuration or a thrown pipeline
call) fails the whole batch open. -/
theorem dedupe_fail_open (items : List ChatItem) (url tok : Option String)
    (store : StoreOutcome)
    (h : jsTruthyStr url = false ∨ jsTruthyStr tok = false ∨ store = .netError) :
    dedupeMessagesAtomic items url tok store = items.map (fun _ => false) := by
  unfold dedupeMessagesAtomic
  by_cases hlen : items.length = 0
  · rw [List.length_eq_zero] at hlen
    subst hlen; simp
  · simp only [hlen, if_false]
    rcases h with h | h | h
    · simp [h]
    · simp [h]
    · subst h
      cases hu : jsTruthyStr url <;> cases ht : jsTruthyStr tok <;> simp

/-- With a transport-successful reply, flag `i` is the decision computed
from the result pair at positions `2*i` and `2*i+1`. -/
theorem dedupe_flag_eq (items : List ChatItem) (url tok : Option String) (d : PipelineData)
    (i : Nat) (hu : jsTruthyStr url = true) (ht : jsTruthyStr tok = true)
    (hi : i < items.length) :
    (dedupeMessagesAtomic items url tok (.ok d))[i]? = some (decideFlag (resultsOf d) i) := by
  unfold dedupeMessagesAtomic dedupeDecisions
  have hlen : ¬ items.length = 0 := by omega
  simp [hlen, hu, ht, List.getElem?_map, List.getElem?_range hi]

/-- When every delivery succeeds, the loop delivers all embeds. -/
theorem postGo_all_ok (sink : Nat → SinkOutcome) (h : ∀ j, sink j = .ok) :
    ∀ (embeds : List Embed) (i : Nat), postGo sink i embeds = (i + embeds.length, none) := by
  intro embeds
  induction embeds with
  | nil => intro i; simp [postGo]
  | cons e rest ih =>
    intro i
    simp only [postGo, h i, ih (i + 1), List.length_cons]
    exact congrArg (fun n => (n, none)) (by omega)

/-- The loop delivers exactly the units before the first failure and
surfaces that failure; it never looks at later units. -/
theorem postGo_stops (sink : Nat → SinkOutcome) (e : SinkFail) :
    ∀ (embeds : List Embed) (i k : Nat), (∀ j, j < k → sink (i + j) = .ok) →
      sink (i + k) = .fail e → k < embeds.length →
      postGo sink i embeds = (i + k, some e) := by
  intro embeds
  induction embeds with
  | nil => intro i k _ _ hk; simp at hk
  | cons u rest ih =>
    intro i k hpre hk hlen
    cases k with
    | zero =>
      simp only [Nat.add_zero] at hk
      simp [postGo, hk]
    | succ k' =>
      have h0 : sink i = .ok := by
        have := hpre 0 (Nat.succ_pos k')
        rwa [Nat.add_zero] at this
      simp only [postGo, h0]
      have := ih (i + 1) k' (fun j hj => by
          have := hpre (j + 1) (by omega)
          simpa [Nat.add_assoc, Nat.add_comm 1 j] using this)
        (by simpa [Nat.add_assoc, Nat.add_comm 1 k'] using hk)
        (by simp only [List.length_cons] at hlen; omega)
      rw [this]
      exact congrArg (fun n => (n, some e)) (by omega)

/-- Every chunk the loop emits has at most `size` elements. -/
theorem chunkGo_chunk_le (size : Nat) :
    ∀ (fuel : Nat) (arr : List α) (c : List α), c ∈ chunkGo size fuel arr → c.length ≤ size := by
  intro fuel
  induction fuel with
  | zero => intro arr c hc; simp [chunkGo] at hc
  | succ f ih =>
    intro arr c hc
    cases arr with
    | nil => simp [chunkGo] at hc
    | cons a t =>
      simp only [chunkGo, List.mem_cons] at hc
      rcases hc with hc | hc
      · subst hc
        rw [List.length_take]
        exact Nat.min_le_left size _
      · exact ih _ _ hc

/-- The number of chunks is the ceiling of `arr.length / size`. -/
theorem chunkGo_length (size : Nat) (hs : 0 < size) :
    ∀ (fuel : Nat) (arr : List α), arr.length ≤ fuel →
      (chunkGo size fuel arr).length = (arr.length + size - 1) / size := by
  intro fuel
  induction fuel with
  | zero =>
    intro arr hf
    have ha : arr = [] := List.length_eq_zero.mp (by omega)
    subst ha
    show ([] : List (List α)).length = (([] : List α).length + size - 1) / size
    simp only [List.length_nil, Nat.zero_add]
    exact (Nat.div_eq_of_lt (by omega)).symm
  | succ f ih =>
    intro arr hf
    cases arr with
    | nil =>
      show ([] : List (List α)).length = (([] : List α).length + size - 1) / size
      simp only [List.length_nil, Nat.zero_add]
      exact (Nat.div_eq_of_lt (by omega)).symm
    | cons a t =>
      have hlen : (a :: t).length = t.length + 1 := rfl
      have hdrop : ((a :: t).drop size).length = (a :: t).length - size := by
        rw [List.length_drop]
      have ihd := ih ((a :: t).drop size) (by rw [hdrop]; omega)
      simp only [chunkGo, List.length_cons, ihd, hdrop]
      have h2 : t.length + 1 + size - 1 = (t.length + 1 - 1) + size := by omega
      rw [h2, Nat.add_div_right _ hs]
      by_cases hc : t.length + 1 ≤ size
      · have h0 : t.length + 1 - size = 0 := by omega
        rw [h0]
        rw [Nat.div_eq_of_lt (show 0 + size - 1 < size by omega),
          Nat.div_eq_of_lt (show t.length + 1 - 1 < size by omega)]
      · have he : t.length + 1 - size + size - 1 = t.length + 1 - 1 := by omega
        rw [he]

/-- Chunk `i` is exactly the slice `[i*size, (i+1)*size)` of the input. -/
theorem chunkGo_getElem (size : Nat) (hs : 0 < size) :
    ∀ (fuel : Nat) (arr : List α) (i : Nat), arr.length ≤ fuel → i * size < arr.length →
      (chunkGo size fuel arr)[i]? = some ((arr.drop (i * size)).take size) := by
  intro fuel
  induction fuel with
  | zero =>
    intro arr i hf hi
    omega
  | succ f ih =>
    intro arr i hf hi
    cases arr with
    | nil => simp at hi
    | cons a t =>
      have hstep : chunkGo size (f + 1) (a :: t)
          = (a :: t).take size :: chunkGo size f ((a :: t).drop size) := rfl
      cases i with
      | zero =>
        rw [hstep, List.getElem?_cons_zero, Nat.zero_mul, List.drop_zero]
      | succ i' =>
        rw [hstep, List.getElem?_cons_succ]
        have hdl : ((a :: t).drop size).length = (a :: t).length - size := List.length_drop _ _
        have hi' : i' * size < ((a :: t).drop size).length := by
          rw [hdl]
          have : (i' + 1) * size = i' * size + size := by ring
          omega
        rw [ih ((a :: t).drop size) i' (by rw [hdl]; simp only [List.length_cons] at hf ⊢; omega) hi']
        rw [List.drop_drop]
        have harg : size + i' * size = (i' + 1) * size := by ring
        rw [harg]

theorem chunkArray_length (arr : List α) (size : Nat) (hs : 0 < size) :
    (chunkArray arr size).length = (arr.length + size - 1) / size :=
  chunkGo_length size hs arr.length arr (Nat.le_refl _)

theorem chunkArray_chunk_le (arr : List α) (size : Nat) (c : List α)
    (hc : c ∈ chunkArray arr size) : c.length ≤ size :=
  chunkGo_chunk_le size arr.length arr c hc

theorem chunkArray_getElem (arr : List α) (size : Nat) (hs : 0 < size) (i : Nat)
    (hi : i * size < arr.length) :
    (chunkArray arr size)[i]? = some ((arr.drop (i * size)).take size) :=
  chunkGo_getElem size hs arr.length arr i (Nat.le_refl _) hi

/-- Anatomy of a success response of the filtered pipeline: the received
count is the filtered batch size, accepted and duplicates partition it,
and the TTLs are echoed. -/
theorem processFiltered_success (env : Env) (items : List ChatItem) (store : StoreOutcome)
    (sink : Nat → SinkOutcome) (r a d t1 t2 : Nat)
    (h : processFiltered env items store sink = .successJson r a d t1 t2) :
    r = items.length ∧ a + d = r ∧ t1 = env.idTtlSec ∧ t2 = env.contentTtlSec := by
  unfold processFiltered at h
  by_cases hlen : items.length = 0
  · rw [if_pos hlen] at h
    exact absurd h (by simp)
  · rw [if_neg hlen] at h
    set flags := dedupeMessagesAtomic items env.upstashUrl env.upstashToken store with hflags
    by_cases hacc : (acceptedOf items flags).length = 0
    · rw [if_pos hacc] at h
      have hsplit := acceptedOf_length_add_duplicatesOf items flags
      simp only [Response.successJson.injEq] at h
      obtain ⟨h1, h2, h3, h4, h5⟩ := h
      refine ⟨h1.symm, ?_, h4.symm, h5.symm⟩
      omega
    · rw [if_neg hacc] at h
      rcases hpost : postDiscordEmbeds env.channelId env.botToken sink
          (embedsFor (acceptedOf items flags)) with ⟨n, err⟩
      rw [hpost] at h
      cases err with
      | none =>
        simp only [Response.successJson.injEq] at h
        obtain ⟨h1, h2, h3, h4, h5⟩ := h
        have hsplit := acceptedOf_length_add_duplicatesOf items flags
        refine ⟨h1.symm, ?_, h4.symm, h5.symm⟩
        omega
      | some e => exact absurd h (by simp)

theorem find?_append_key (t : String) (now : Nat) :
    ∀ (l : SeenMap), (∀ p ∈ l, (p.1 == t) = false) →
      List.find? (fun q => q.1 == t) (l ++ [(t, now)]) = some (t, now) := by
  intro l
  induction l with
  | nil =>
    intro _
    rw [List.nil_append, List.find?_cons_of_pos _ (by simp)]
  | cons p l ih =>
    intro h
    rw [List.cons_append,
      List.find?_cons_of_neg _ (by simp [h p (List.mem_cons_self p l)]),
      ih (fun q hq => h q (List.mem_cons_of_mem _ hq))]

theorem find?_prune_map_upd (t : String) (now : Nat) :
    ∀ (l : SeenMap), l.any (fun p => p.1 == t) = true →
      List.find? (fun q => q.1 == t)
        (pruneSeen (l.map (fun p => if p.1 == t then (t, now) else p)) now) = some (t, now) := by
  intro l
  induction l with
  | nil => intro h; simp at h
  | cons p l ih =>
    intro h
    by_cases hp : (p.1 == t) = true
    · simp only [List.map_cons, hp, if_true]
      unfold pruneSeen
      rw [List.filter_cons, if_pos (by simp)]
      exact List.find?_cons_of_pos _ (by simp)
    · have hp' : (p.1 == t) = false := by simpa using hp
      have hany : l.any (fun p => p.1 == t) = true := by
        simp only [List.any_cons, hp', Bool.false_or] at h
        exact h
      simp only [List.map_cons]
      rw [if_neg hp]
      unfold pruneSeen at ih ⊢
      rw [List.filter_cons]
      by_cases hk : (!(decide (now - p.2 > DEDUP_WINDOW))) = true
      · rw [if_pos hk, List.find?_cons_of_neg _ (by simp [hp'])]
        exact ih hany
      · rw [if_neg hk]
        exact ih hany

/-- After an accepting insertion followed by the sweep, the recorded
last-seen time of the inserted text is `now`. -/
theorem seenGet_after_insert (seen : SeenMap) (t : String) (now : Nat) :
    seenGet (pruneSeen (seenSet seen t now) now) t = now := by
  unfold seenGet seenSet
  by_cases hany : (seen.any (fun p => p.1 == t)) = true
  · rw [if_pos hany, find?_prune_map_upd t now seen hany]
  · rw [if_neg hany]
    have hall : ∀ p ∈ seen, (p.1 == t) = false := by
      intro p hp
      have hf : seen.any (fun p => p.1 == t) = false := Bool.not_eq_true _ ▸ eq_false_of_ne_true hany
      have := List.any_eq_false.mp hf p hp
      simpa using this
    unfold pruneSeen
    rw [List.filter_append]
    have hsing : List.filter (fun p => !(decide (now - p.2 > DEDUP_WINDOW))) [(t, now)]
        = [(t, now)] := by simp
    rw [hsing, find?_append_key t now _ (fun q hq => hall q (List.mem_of_mem_filter hq))]

/-! Concrete sample inputs used by the witnesses. -/

def sampleEnv : Env := ⟨some "u", some "t", some "c", some "b", 60, 10⟩

def envNoStore : Env := ⟨none, none, some "c", some "b", 60, 10⟩

def sampleRec (i : String) : RawRecord := ⟨some i, some "m", none, none, none, some "Al", some 0⟩

def sampleBody1 : List RawRecord := [sampleRec "1"]

def sampleBody7 : List RawRecord :=
  [sampleRec "1", sampleRec "2", sampleRec "3", sampleRec "4", sampleRec "5",
   sampleRec "6", sampleRec "7"]

def sentinelRec : RawRecord := ⟨some "s", some "m", none, none, none, some "Al", some (-2)⟩

def bodySentinel : List RawRecord := [sentinelRec, sampleRec "1"]

def bodyInvalid : List RawRecord :=
  [⟨none, some "hi", none, none, none, none, none⟩,
   ⟨some "1", some "   ", none, none, none, none, none⟩]

def sinkOk : Nat → SinkOutcome := fun _ => .ok

def sinkBoom : Nat → SinkOutcome := fun _ => .fail ⟨some 500, some "boom"⟩

def sinkBoomAfter1 : Nat → SinkOutcome :=
  fun i => match i with | 0 => .ok | _ => .fail ⟨some 500, some "boom"⟩

def sampleItem : ChatItem := ⟨"1", "m", "", "", "", "Al", some 0⟩

def okResult : CmdResult := ⟨none, some "OK"⟩

def heldResult : CmdResult := ⟨none, none⟩

def errResult : CmdResult := ⟨some "transient fault", none⟩

/-! The claims. -/

/-- C1: in a transport-successful dedupe round trip whose result pair for
event `i` is present and error-free, the event is classified new (flag
`false`) iff both the identity and the content reservation report "OK";
equivalently, it is a duplicate iff at least one of the two keys was
already held — a fresh identity key alone is not enough, nor is a fresh
content key alone. -/
theorem c1_accept_iff_both_reservations_ok
    (items : List ChatItem) (url tok : Option String) (results : List CmdResult)
    (i : Nat) (r1 r2 : CmdResult)
    (hu : jsTruthyStr url = true) (ht : jsTruthyStr tok = true)
    (hi : i < items.length)
    (h1 : results[2 * i]? = some r1) (h2 : results[2 * i + 1]? = some r2)
    (he1 : jsTruthyStr r1.error = false) (he2 : jsTruthyStr r2.error = false) :
    ((dedupeMessagesAtomic items url tok (.ok (.arr results)))[i]? = some false
      ↔ (r1.result = some "OK" ∧ r2.result = some "OK"))
    ∧ ((dedupeMessagesAtomic items url tok (.ok (.arr results)))[i]? = some true
      ↔ (r1.result ≠ some "OK" ∨ r2.result ≠ some "OK")) := by
  rw [dedupe_flag_eq items url tok (.arr results) i hu ht hi]
  simp only [decideFlag, resultsOf, h1, h2]
  unfold cmdErrored cmdOk
  simp only [Option.some_bind, he1, he2, Bool.or_self, Bool.false_eq_true, if_false,
    Option.some.injEq, Bool.not_eq_false', Bool.not_eq_true', Bool.and_eq_true, beq_iff_eq,
    Bool.and_eq_false_iff, beq_eq_false_iff_ne]
  tauto

/-- C1 witness: one event whose identity key is fresh ("OK") but whose
content key is already held is classified a duplicate. -/
theorem c1_witness :
    (dedupeMessagesAtomic [sampleItem] (some "u") (some "t")
      (.ok (.arr [okResult, heldResult])))[0]? = some true :=
  (c1_accept_iff_both_reservations_ok [sampleItem] (some "u") (some "t")
    [okResult, heldResult] 0 okResult heldResult (by decide) (by decide) (by decide)
    (by decide) (by decide) (by decide) (by decide)).2.mpr (Or.inr (by decide))

/-- C2: when the conditional store cannot be used — the pipeline call
throws, or the Upstash URL or token is missing — every event in the batch
is marked not-duplicate, and with a working sink the request still runs
the forwarding path and returns the success summary (all events accepted,
zero duplicates) instead of failing. -/
theorem c2_store_failure_fails_open
    (env : Env) (body : List RawRecord) (store : StoreOutcome) (sink : Nat → SinkOutcome)
    (hfail : jsTruthyStr env.upstashUrl = false ∨ jsTruthyStr env.upstashToken = false
      ∨ store = .netError)
    (hne : filteredOf body ≠ [])
    (hsink : ∀ i, sink i = .ok)
    (hch : jsTruthyStr env.channelId = true) (hbt : jsTruthyStr env.botToken = true) :
    dedupeMessagesAtomic (filteredOf body) env.upstashUrl env.upstashToken store
      = (filteredOf body).map (fun _ => false)
    ∧ handler env (some body) store sink
      = .successJson (filteredOf body).length (filteredOf body).length 0
          env.idTtlSec env.contentTtlSec := by
  have hded := dedupe_fail_open (filteredOf body) env.upstashUrl env.upstashToken store hfail
  refine ⟨hded, ?_⟩
  show processFiltered env (filteredOf body) store sink = _
  have hlen : ¬ (filteredOf body).length = 0 := fun h0 => hne (List.length_eq_zero.mp h0)
  unfold processFiltered
  rw [if_neg hlen, hded]
  dsimp only
  rw [acceptedOf_map_false, duplicatesOf_map_false, if_neg hlen]
  unfold postDiscordEmbeds
  simp only [hch, hbt, Bool.not_true, Bool.false_eq_true, if_false]
  rw [postGo_all_ok sink hsink _ 0]

/-- C2 witness: a one-event batch with no store configured and an
unreachable store is fully accepted and the request reports success. -/
theorem c2_witness :
    dedupeMessagesAtomic (filteredOf sampleBody1) none none .netError
      = (filteredOf sampleBody1).map (fun _ => false)
    ∧ handler envNoStore (some sampleBody1) .netError sinkOk
      = .successJson (filteredOf sampleBody1).length (filteredOf sampleBody1).length 0
          envNoStore.idTtlSec envNoStore.contentTtlSec :=
  c2_store_failure_fails_open envNoStore sampleBody1 .netError sinkOk (Or.inl (by decide))
    (by decide) (fun _ => rfl) (by decide) (by decide)

/-- C3: chunking `arr` with chunk size `K > 0` yields exactly
`ceil(arr.length / K)` chunks, each of at most `K` lines, and chunk `i`
is exactly the slice of indices `[i*K, (i+1)*K)` in original order. -/
theorem c3_chunking_partition (arr : List α) (size : Nat) (hs : 0 < size) :
    (chunkArray arr size).length = (arr.length + size - 1) / size
    ∧ (∀ c ∈ chunkArray arr size, c.length ≤ size)
    ∧ (∀ i, i * size < arr.length →
        (chunkArray arr size)[i]? = some ((arr.drop (i * size)).take size)) :=
  ⟨chunkArray_length arr size hs,
   fun c hc => chunkArray_chunk_le arr size c hc,
   fun i hi => chunkArray_getElem arr size hs i hi⟩

/-- C3 witness: 13 lines at the program chunk size 6 yield ceil(13/6) = 3
units of sizes 6, 6, 1. -/
theorem c3_witness :
    (0 : Nat) < 6
    ∧ (chunkArray (List.range 13) 6).length = ((List.range 13).length + 6 - 1) / 6
    ∧ (chunkArray (List.range 13) 6).map List.length = [6, 6, 1] :=
  ⟨by decide, (c3_chunking_partition (List.range 13) 6 (by decide)).1, by decide⟩

/-- C4: within an otherwise successful batched round trip, an event one
of whose two commands reports a per-command error fails open (flag
`false`, accepted); every other event whose own pair is error-free gets
the normal decision: new iff both of its reservations report "OK". -/
theorem c4_command_error_fails_open
    (items : List ChatItem) (url tok : Option String) (results : List CmdResult) (i : Nat)
    (hu : jsTruthyStr url = true) (ht : jsTruthyStr tok = true) (hi : i < items.length)
    (herr : cmdErrored results[2 * i]? = true ∨ cmdErrored results[2 * i + 1]? = true) :
    (dedupeMessagesAtomic items url tok (.ok (.arr results)))[i]? = some false
    ∧ ∀ j, j < items.length →
        cmdErrored results[2 * j]? = false → cmdErrored results[2 * j + 1]? = false →
        ((dedupeMessagesAtomic items url tok (.ok (.arr results)))[j]? = some false
          ↔ (cmdOk results[2 * j]? = true ∧ cmdOk results[2 * j + 1]? = true)) := by
  constructor
  · rw [dedupe_flag_eq items url tok (.arr results) i hu ht hi]
    simp only [decideFlag, resultsOf]
    rcases herr with h | h
    · rw [h]; simp
    · rw [h]; simp
  · intro j hj hj1 hj2
    rw [dedupe_flag_eq items url tok (.arr results) j hu ht hj]
    simp only [decideFlag, resultsOf, hj1, hj2, Bool.or_self, Bool.false_eq_true, if_false,
      Option.some.injEq, Bool.not_eq_false', Bool.and_eq_true]

/-- C4 witness: event 0 has an errored identity command and is accepted
despite its held content key; event 1 with a clean all-"OK" pair is also
accepted through the normal rule. -/
theorem c4_witness :
    (dedupeMessagesAtomic [sampleItem, ⟨"2", "m", "", "", "", "Al", some 0⟩]
      (some "u") (some "t")
      (.ok (.arr [errResult, heldResult, okResult, okResult])))[0]? = some false
    ∧ (dedupeMessagesAtomic [sampleItem, ⟨"2", "m", "", "", "", "Al", some 0⟩]
      (some "u") (some "t")
      (.ok (.arr [errResult, heldResult, okResult, okResult])))[1]? = some false := by
  have h := c4_command_error_fails_open [sampleItem, ⟨"2", "m", "", "", "", "Al", some 0⟩]
    (some "u") (some "t") [errResult, heldResult, okResult, okResult] 0
    (by decide) (by decide) (by decide) (Or.inl (by decide))
  exact ⟨h.1, (h.2 1 (by decide) (by decide) (by decide)).mpr ⟨by decide, by decide⟩⟩

/-- C5: normalized events whose rank is the sentinel `-2` are removed
before the dedup engine sees the batch — the whole downstream pipeline,
including every count in a success response, is computed from the
sentinel-free list, whose length is the reported `received`. -/
theorem c5_sentinel_rank_excluded
    (env : Env) (body : List RawRecord) (store : StoreOutcome) (sink : Nat → SinkOutcome) :
    (∀ m ∈ filteredOf body, m.rank ≠ some (-2))
    ∧ handler env (some body) store sink = processFiltered env (filteredOf body) store sink
    ∧ (∀ r a d t1 t2, handler env (some body) store sink = .successJson r a d t1 t2 →
        r = (filteredOf body).length) := by
  refine ⟨?_, rfl, ?_⟩
  · intro m hm
    unfold filteredOf at hm
    have h := (List.mem_filter.mp hm).2
    simpa using h
  · intro r a d t1 t2 h
    exact (processFiltered_success env (filteredOf body) store sink r a d t1 t2 h).1

/-- C5 witness: a batch holding one sentinel-ranked record and one normal
record; the normal event is in the filtered list with a non-sentinel
rank, and the success response reports `received = 1`, ignoring the
sentinel event entirely. -/
theorem c5_witness :
    sampleItem.rank ≠ some (-2) ∧ (1 : Nat) = (filteredOf bodySentinel).length :=
  ⟨(c5_sentinel_rank_excluded sampleEnv bodySentinel .netError sinkOk).1 sampleItem (by decide),
   (c5_sentinel_rank_excluded sampleEnv bodySentinel .netError sinkOk).2.2 1 1 0 60 10
     (by decide)⟩

/-- C6: a record with an absent identifier or an empty post-trim message
is dropped individually (normalization is `none` exactly then); the input
is capped to the first 50 entries; an empty normalized-and-filtered batch
aborts the whole request with the validation error before any store or
sink interaction (the response is the same for every store and sink
oracle); and with a non-empty filtered batch no validation rejection can
occur. -/
theorem c6_normalization_validation
    (env : Env) (body : List RawRecord) (store : StoreOutcome) (sink : Nat → SinkOutcome) :
    (∀ m : RawRecord, normalizeRecord m = none
      ↔ (m.id = none ∨ jsTrim (toSafeString m.message) = ""))
    ∧ normalizeItems body = normalizeItems (body.take 50)
    ∧ (filteredOf body = [] →
        handler env (some body) store sink = .badRequest "No valid messages found in body.")
    ∧ (filteredOf body ≠ [] →
        ∀ msg, handler env (some body) store sink ≠ .badRequest msg) := by
  refine ⟨?_, ?_, ?_, ?_⟩
  · intro m
    cases hid : m.id with
    | none => simp [normalizeRecord, hid]
    | some v =>
      by_cases hmsg : jsTrim (toSafeString m.message) = ""
      · simp [normalizeRecord, hid, hmsg]
      · simp [normalizeRecord, hid, hmsg]
  · unfold normalizeItems
    rw [List.take_take]
    norm_num
  · intro h
    show processFiltered env (filteredOf body) store sink = _
    rw [h]
    rfl
  · intro hne msg h
    have hp : processFiltered env (filteredOf body) store sink = .badRequest msg := h
    have hlen : ¬ (filteredOf body).length = 0 := fun h0 => hne (List.length_eq_zero.mp h0)
    unfold processFiltered at hp
    rw [if_neg hlen] at hp
    dsimp only at hp
    by_cases hacc : (acceptedOf (filteredOf body)
        (dedupeMessagesAtomic (filteredOf body) env.upstashUrl env.upstashToken store)).length = 0
    · rw [if_pos hacc] at hp
      exact Response.noConfusion hp
    · rw [if_neg hacc] at hp
      rcases hpost : postDiscordEmbeds env.channelId env.botToken sink
          (embedsFor (acceptedOf (filteredOf body)
            (dedupeMessagesAtomic (filteredOf body) env.upstashUrl env.upstashToken store)))
        with ⟨n, err⟩
      rw [hpost] at hp
      cases err with
      | none => exact Response.noConfusion hp
      | some e => exact Response.noConfusion hp

/-- C6 witness: a record without identifier normalizes to the invalid
marker, and a batch whose records are all invalid is rejected with the
validation error. -/
theorem c6_witness :
    normalizeRecord ⟨none, some "hi", none, none, none, none, none⟩ = none
    ∧ handler sampleEnv (some bodyInvalid) .netError sinkOk
      = .badRequest "No valid messages found in body." :=
  ⟨(c6_normalization_validation sampleEnv bodyInvalid .netError sinkOk).1
      ⟨none, some "hi", none, none, none, none, none⟩ |>.mpr (Or.inl rfl),
   (c6_normalization_validation sampleEnv bodyInvalid .netError sinkOk).2.2.1 (by decide)⟩

/-- C7 (amended): outbound units are delivered strictly sequentially in
chunk order and delivery stops at the first failure — exactly the units
before the failing one are sent and no later unit is attempted (the
result does not depend on the sink beyond index `k`).  The failure
response carries the sink's status and error payload and is
distinguishable from the success summary; it does not, however, carry
the counts, so it does not distinguish a partial delivery from a total
one (see the counterexample). -/
theorem c7_sequential_stop_amended
    (channelId botToken : Option String) (sink : Nat → SinkOutcome) (embeds : List Embed)
    (k : Nat) (e : SinkFail)
    (hch : jsTruthyStr channelId = true) (hbt : jsTruthyStr botToken = true)
    (hpre : ∀ j, j < k → sink j = .ok) (hk : sink k = .fail e) (hlen : k < embeds.length) :
    postDiscordEmbeds channelId botToken sink embeds = (k, some e)
    ∧ ∀ r a d t1 t2, Response.sinkError (jsOrNat e.status 502) (jsOrStr e.data "Unknown error")
        ≠ .successJson r a d t1 t2 := by
  constructor
  · unfold postDiscordEmbeds
    simp only [hch, hbt, Bool.not_true, Bool.false_eq_true, if_false]
    have h := postGo_stops sink e embeds 0 k (fun j hj => by simpa using hpre j hj)
      (by simpa using hk) hlen
    simpa using h
  · intro r a d t1 t2 h
    exact Response.noConfusion h

/-- C7 witness: with a sink that accepts unit 0 and rejects unit 1 of the
two units built from a seven-event batch, exactly one unit is delivered
and the loop stops with that failure. -/
theorem c7_amended_witness :
    postDiscordEmbeds (some "c") (some "b") sinkBoomAfter1 (embedsFor (filteredOf sampleBody7))
      = (1, some ⟨some 500, some "boom"⟩) :=
  (c7_sequential_stop_amended (some "c") (some "b") sinkBoomAfter1
    (embedsFor (filteredOf sampleBody7)) 1 ⟨some 500, some "boom"⟩ (by decide) (by decide)
    (fun j hj => by
      cases j with
      | zero => rfl
      | succ n => exact absurd hj (by omega))
    rfl (by decide)).1

/-- C7 counterexample: the claim also asserts that a failure after N of M
units is distinguishable in the result summary from total failure, with
the counts included in the failure summary.  The code returns only
`{status, error}` from the catch block: a batch of seven accepted events
(two outbound units) produces the identical response whether the sink
fails on the first unit (nothing delivered) or on the second (one unit
delivered), even though the delivered counts differ. -/
theorem c7_counterexample :
    handler envNoStore (some sampleBody7) .netError sinkBoomAfter1
      = handler envNoStore (some sampleBody7) .netError sinkBoom
    ∧ (postDiscordEmbeds envNoStore.channelId envNoStore.botToken sinkBoomAfter1
        (embedsFor (filteredOf sampleBody7))).1 = 1
    ∧ (postDiscordEmbeds envNoStore.channelId envNoStore.botToken sinkBoom
        (embedsFor (filteredOf sampleBody7))).1 = 0 := by decide

/-- C8: the in-process fallback deduplicator marks an event duplicate iff
`now - lastSeen(text) < window` (an unseen text reads as `lastSeen = 0`,
exactly as the source's `seen.get(t) || 0`); on acceptance it records
`lastSeen(text) = now` and sweeps, after which every remaining entry is
within the window and every inserted entry within the window survives. -/
theorem c8_fallback_window (seen : SeenMap) (txnText : String) (now : Nat) :
    ((incomingDedupeStep seen txnText now).1 = true
      ↔ now - seenGet seen txnText < DEDUP_WINDOW)
    ∧ ((incomingDedupeStep seen txnText now).1 = false →
        seenGet (incomingDedupeStep seen txnText now).2 txnText = now
        ∧ (∀ p ∈ (incomingDedupeStep seen txnText now).2, now - p.2 ≤ DEDUP_WINDOW)
        ∧ (∀ p ∈ seenSet seen txnText now, now - p.2 ≤ DEDUP_WINDOW →
            p ∈ (incomingDedupeStep seen txnText now).2)) := by
  unfold incomingDedupeStep
  by_cases hc : now - seenGet seen txnText < DEDUP_WINDOW
  · rw [if_pos hc]
    exact ⟨by simpa using hc, fun h => by simp at h⟩
  · rw [if_neg hc]
    refine ⟨by simpa using hc, fun _ => ⟨seenGet_after_insert seen txnText now, ?_, ?_⟩⟩
    · intro p hp
      unfold pruneSeen at hp
      have h := (List.mem_filter.mp hp).2
      simp only [Bool.not_eq_true', decide_eq_false_iff_not, gt_iff_lt, not_lt] at h
      exact h
    · intro p hp hle
      unfold pruneSeen
      exact List.mem_filter.mpr ⟨hp, by
        simp only [Bool.not_eq_true', decide_eq_false_iff_not, gt_iff_lt, not_lt]
        exact hle⟩

/-- C8 witness: inserting a fresh text at `now = 2000` into an empty map
is accepted and afterwards its recorded last-seen time is `now`. -/
theorem c8_witness :
    seenGet (incomingDedupeStep [] "x" 2000).2 "x" = 2000 :=
  ((c8_fallback_window [] "x" 2000).2 (by decide)).1

/-- C9: when the pipeline reply is transport-successful but carries no
result pair for an event — the data is not an array (coerced to `[]`),
or the result list is too short — that event is classified a duplicate
(suppressed), not failed open: a missing result is neither a reservation
success nor a per-command error. -/
theorem c9_missing_results_suppress
    (items : List ChatItem) (url tok : Option String) (results : List CmdResult) (i : Nat)
    (hu : jsTruthyStr url = true) (ht : jsTruthyStr tok = true) (hi : i < items.length)
    (hmiss : results.length ≤ 2 * i) :
    (dedupeMessagesAtomic items url tok (.ok (.arr results)))[i]? = some true
    ∧ dedupeMessagesAtomic items url tok (.ok .nonArray) = items.map (fun _ => true) := by
  constructor
  · rw [dedupe_flag_eq items url tok (.arr results) i hu ht hi]
    have h1 : results[2 * i]? = none := List.getElem?_eq_none hmiss
    have h2 : results[2 * i + 1]? = none := List.getElem?_eq_none (by omega)
    simp only [decideFlag, resultsOf, h1, h2]
    rfl
  · unfold dedupeMessagesAtomic
    have hlen : ¬ items.length = 0 := by omega
    simp only [hlen, if_false, hu, ht, Bool.not_true, Bool.or_self, Bool.false_eq_true]
    unfold dedupeDecisions resultsOf
    have hconst : (List.range items.length).map (decideFlag [])
        = (List.range items.length).map (fun _ => true) :=
      List.map_congr_left (fun j _ => rfl)
    rw [hconst, map_const_true_of_length_eq _ items (by simp)]

/-- C9 witness: a one-event batch with an empty result list (as produced
by a non-array reply) is classified duplicate, and the non-array reply
suppresses the whole batch. -/
theorem c9_witness :
    (dedupeMessagesAtomic [sampleItem] (some "u") (some "t") (.ok (.arr [])))[0]? = some true
    ∧ dedupeMessagesAtomic [sampleItem] (some "u") (some "t") (.ok .nonArray)
      = [sampleItem].map (fun _ => true) :=
  c9_missing_results_suppress [sampleItem] (some "u") (some "t") [] 0
    (by decide) (by decide) (by decide) (by decide)

/-- C10: every success response satisfies `received = accepted +
duplicates`, and `received` is the length of the normalized,
sentinel-filtered batch — not the raw input length — in both the
all-duplicates early return and the post-forwarding return. -/
theorem c10_success_counts
    (env : Env) (body : List RawRecord) (store : StoreOutcome) (sink : Nat → SinkOutcome)
    (r a d t1 t2 : Nat)
    (h : handler env (some body) store sink = .successJson r a d t1 t2) :
    r = a + d ∧ r = (filteredOf body).length := by
  have hs := processFiltered_success env (filteredOf body) store sink r a d t1 t2 h
  exact ⟨hs.2.1.symm, hs.1⟩

/-- C10 witness: a one-event batch accepted end to end reports
`received = 1 = accepted + duplicates`, the filtered batch length. -/
theorem c10_witness :
    (1 : Nat) = 1 + 0 ∧ (1 : Nat) = (filteredOf sampleBody1).length :=
  c10_success_counts sampleEnv sampleBody1 .netError sinkOk 1 1 0 60 10 (by decide)
